import Mathlib

/-!
Verification development for the NASA25 event-planning backend
(src/backend/app.py).  The definitions below are a shallow embedding of the
Python source: numeric metric values are rationals, Python dictionaries of
optional numeric fields become structures of Option fields, and Python
truthiness (None and 0 are falsy) is modelled explicitly.
-/

namespace NASA25

/-- The metrics dictionary read by interpret_conditions.  The code reads the
keys t_max, tmax, precip_24h and precip; wind_max is carried by callers but
never read by the function.  A value of none models an absent key or a key
bound to None. -/
structure Metrics where
  t_max : Option ℚ := none
  tmax : Option ℚ := none
  precip_24h : Option ℚ := none
  precip : Option ℚ := none
  wind_max : Option ℚ := none
deriving DecidableEq, Repr

/-- Python `a or b` on two optional numbers: the left value is kept when it
is truthy (present and nonzero), otherwise the right operand is returned. -/
def pyOr (a b : Option ℚ) : Option ℚ :=
  match a with
  | some x => if x = 0 then b else some x
  | none => b

/-- Python `o or 0`: a truthy value is kept, otherwise 0.  Since a falsy
numeric value is numerically 0, this collapses an optional to a rational. -/
def orZero (o : Option ℚ) : ℚ :=
  match o with
  | some x => x
  | none => 0

/-- Python `o and o >= c` for an optional number o: true when o is truthy
(present and nonzero) and at least c. -/
def truthyAndGe (o : Option ℚ) (c : ℚ) : Bool :=
  match o with
  | some x => if x = 0 then false else decide (c ≤ x)
  | none => false

/-- Python `o and o <= c` for an optional number o: true when o is truthy
(present and nonzero) and at most c. -/
def truthyAndLe (o : Option ℚ) (c : ℚ) : Bool :=
  match o with
  | some x => if x = 0 then false else decide (x ≤ c)
  | none => false

/-- Base label and base tips chosen from the weather metrics, from the else
branch of interpret_conditions (lines 196 to 209 of src/backend/app.py). -/
def baseAdvice (m : Metrics) : String × List String :=
  let tmax := pyOr m.t_max m.tmax
  let rain : ℚ := orZero (pyOr m.precip_24h m.precip)
  if truthyAndGe tmax 34 then
    ("very hot", ["stay hydrated", "use sunscreen", "set up shaded rest areas"])
  else if 10 ≤ rain then
    ("very wet", ["bring umbrellas or ponchos", "cover electrical gear", "consider indoor backup"])
  else if truthyAndLe tmax 18 then
    ("cool", ["bring light jacket", "warm drinks", "prepare windbreakers"])
  else
    ("fair", ["good outdoor weather", "still check UV levels", "keep hydration nearby"])

/-- Lower-case a string into its character list, modelling Python lower on
the event name. -/
def lower (s : String) : List Char :=
  s.toList.map Char.toLower

/-- Python `any(k in e for k in ks)`: some keyword of ks occurs as a
substring of e. -/
def anyKw (e : List Char) (ks : List String) : Bool :=
  ks.any fun k => decide (k.toList <:+: e)

/-- The contextual event-intelligence tips, from the keyword branches of
interpret_conditions (lines 212 to 233 of src/backend/app.py). -/
def eventTips (e : List Char) : List String :=
  if anyKw e ["drone", "flying", "aerial", "uav", "fpv"] then
    ["check wind speed", "verify NOTAM zones", "bring ND filters", "spare batteries"]
  else if anyKw e ["wedding", "ceremony", "party", "festival"] then
    ["confirm canopy vendor", "protect sound systems", "backup indoor option"]
  else if anyKw e ["concert", "show", "performance"] then
    ["check lighting", "cover audio equipment", "manage crowd cooling"]
  else if anyKw e ["sports", "match", "run", "race", "tournament"] then
    ["hydration points ready", "shade near seating", "heat index monitoring"]
  else if anyKw e ["picnic", "bbq", "beach", "park"] then
    ["bring cooler", "sunscreen", "avoid peak sun 12–3 pm"]
  else if anyKw e ["hike", "trail", "camp", "forest"] then
    ["carry insect repellent", "check rainfall for trail conditions"]
  else if anyKw e ["market", "bazaar", "stall", "food"] then
    ["keep perishables chilled", "secure tents", "prepare tarps"]
  else if anyKw e ["shoot", "filming", "photo", "video"] then
    ["check sunlight angles", "use ND filters", "keep batteries charged"]
  else if anyKw e ["school", "outreach", "booth", "open house"] then
    ["laminate posters", "check wind stability of displays"]
  else if anyKw e ["meeting", "conference", "expo"] then
    ["check AV setup", "backup presentation USB"]
  else if anyKw e ["travel", "trip", "journey"] then
    ["expect delays in bad weather", "carry compact umbrella"]
  else
    []

/-- The three general tips appended when absent (lines 235 to 241). -/
def generalTips : List String :=
  ["monitor live weather 3h before start",
   "keep first-aid supplies ready",
   "assign weather safety in-charge"]

/-- One step of the general-tips loop: append g unless already present. -/
def addIfAbsent (ts : List String) (g : String) : List String :=
  if g ∈ ts then ts else ts ++ [g]

/-- The general-tips loop of interpret_conditions. -/
def addGeneral (ts : List String) : List String :=
  generalTips.foldl addIfAbsent ts

/-- The under-three padding step (lines 243 to 244). -/
def padTips (ts : List String) : List String :=
  if ts.length < 3 then
    ts ++ ["monitor conditions hourly", "pack essentials", "communicate updates"]
  else ts

/-- The first-occurrence deduplication loop of interpret_conditions (lines
246 to 247): keep an element when it has not been seen yet. -/
def dedupFirstAux (seen : List String) : List String → List String
  | [] => []
  | t :: rest =>
    if t ∈ seen then dedupFirstAux seen rest
    else t :: dedupFirstAux (t :: seen) rest

/-- The advice label of interpret_conditions: mixed conditions when the
metrics argument is falsy, otherwise the weather-threshold label. -/
def adviceLabel (metrics : Option Metrics) : String :=
  match metrics with
  | none => "mixed conditions"
  | some m => (baseAdvice m).1

/-- The tips list of interpret_conditions just before deduplication: base
weather tips, then event-keyword tips, then the general-tips loop, then the
under-three padding. -/
def preTips (metrics : Option Metrics) (event_name : String) : List String :=
  let e := lower event_name
  let base : List String :=
    match metrics with
    | none => []
    | some m => (baseAdvice m).2
  padTips (addGeneral (base ++ eventTips e))

/-- Shallow embedding of interpret_conditions (lines 184 to 248 of
src/backend/app.py): returns the advice label together with the
deduplicated tips list. -/
def interpret_conditions (metrics : Option Metrics) (event_name : String) :
    String × List String :=
  (adviceLabel metrics, dedupFirstAux [] (preTips metrics event_name))

/-- Comparison of an optional metric against a lower threshold, reading the
specification: an absent value satisfies no threshold. -/
def optGe (o : Option ℚ) (c : ℚ) : Bool :=
  match o with
  | some x => decide (c ≤ x)
  | none => false

/-- Comparison of an optional metric against an upper threshold, reading the
specification: an absent value satisfies no threshold. -/
def optLe (o : Option ℚ) (c : ℚ) : Bool :=
  match o with
  | some x => decide (x ≤ c)
  | none => false

/-- The advice-label decision list exactly as the specification words it
(claim C1): t_max at least 33 gives very hot, else precip_24h at least 10
gives very wet, else wind_max at least 10 gives very windy, else t_max at
most 18 gives cool, else fair. -/
def specAdviceLabel (m : Metrics) : String :=
  if optGe m.t_max 33 then "very hot"
  else if optGe m.precip_24h 10 then "very wet"
  else if optGe m.wind_max 10 then "very windy"
  else if optLe m.t_max 18 then "cool"
  else "fair"

/-- The effective temperature of the amended decision list: t_max, falling
back to tmax when t_max is absent or zero. -/
def effectiveTemp (m : Metrics) : Option ℚ :=
  match m.t_max with
  | some x => if x = 0 then m.tmax else some x
  | none => m.tmax

/-- The effective rain of the amended decision list: precip_24h, falling
back to precip when absent or zero, and defaulting to 0. -/
def effectiveRain (m : Metrics) : ℚ :=
  match m.precip_24h with
  | some x =>
    if x = 0 then
      match m.precip with
      | some y => y
      | none => 0
    else x
  | none =>
    match m.precip with
    | some y => y
    | none => 0

/-- The advice-label decision list as the code actually computes it: a
present and nonzero effective temperature of at least 34 gives very hot,
else effective rain at least 10 gives very wet, else a present and nonzero
effective temperature of at most 18 gives cool, else fair.  There is no
wind rule and no very windy label. -/
def amendedAdviceLabel (m : Metrics) : String :=
  match effectiveTemp m with
  | some x =>
    if x ≠ 0 ∧ 34 ≤ x then "very hot"
    else if 10 ≤ effectiveRain m then "very wet"
    else if x ≠ 0 ∧ x ≤ 18 then "cool"
    else "fair"
  | none =>
    if 10 ≤ effectiveRain m then "very wet" else "fair"

/-- Index of the first occurrence of a string in a list (length of the list
when absent); used to state that deduplication keeps first-occurrence
order. -/
def firstPos (a : String) : List String → Nat
  | [] => 0
  | b :: l => if a = b then 0 else firstPos a l + 1

theorem mem_dedupFirstAux {a : String} {seen l : List String} :
    a ∈ dedupFirstAux seen l ↔ a ∈ l ∧ a ∉ seen := by
  induction l generalizing seen with
  | nil => simp [dedupFirstAux]
  | cons t rest ih =>
    by_cases ht : t ∈ seen
    · simp only [dedupFirstAux, if_pos ht, ih, List.mem_cons]
      constructor
      · rintro ⟨h1, h2⟩
        exact ⟨Or.inr h1, h2⟩
      · rintro ⟨h1 | h1, h2⟩
        · exact absurd ht (h1 ▸ h2)
        · exact ⟨h1, h2⟩
    · simp only [dedupFirstAux, if_neg ht, List.mem_cons, ih]
      constructor
      · rintro (rfl | ⟨h1, h2⟩)
        · exact ⟨Or.inl rfl, ht⟩
        · exact ⟨Or.inr h1, fun hs => h2 (Or.inr hs)⟩
      · rintro ⟨rfl | h1, h2⟩
        · exact Or.inl rfl
        · by_cases hat : a = t
          · exact Or.inl hat
          · exact Or.inr ⟨h1, fun hs => hs.elim hat h2⟩

theorem dedupFirstAux_sublist (seen l : List String) :
    List.Sublist (dedupFirstAux seen l) l := by
  induction l generalizing seen with
  | nil => simp [dedupFirstAux]
  | cons t rest ih =>
    by_cases ht : t ∈ seen
    · simpa [dedupFirstAux, if_pos ht] using (ih seen).cons t
    · simpa [dedupFirstAux, if_neg ht] using (ih (t :: seen)).cons₂ t

theorem dedupFirstAux_nodup (seen l : List String) :
    (dedupFirstAux seen l).Nodup := by
  induction l generalizing seen with
  | nil => simp [dedupFirstAux]
  | cons t rest ih =>
    by_cases ht : t ∈ seen
    · simpa [dedupFirstAux, if_pos ht] using ih seen
    · simp only [dedupFirstAux, if_neg ht, List.nodup_cons]
      refine ⟨fun hmem => ?_, ih (t :: seen)⟩
      exact (mem_dedupFirstAux.mp hmem).2 (List.mem_cons_self t seen)

theorem dedupFirstAux_firstPos (seen l : List String) :
    ∀ a b, a ∈ dedupFirstAux seen l → b ∈ dedupFirstAux seen l →
      firstPos a (dedupFirstAux seen l) < firstPos b (dedupFirstAux seen l) →
      firstPos a l < firstPos b l := by
  induction l generalizing seen with
  | nil => intro a b ha; simp [dedupFirstAux] at ha
  | cons t rest ih =>
    intro a b ha hb hlt
    by_cases ht : t ∈ seen
    · rw [dedupFirstAux, if_pos ht] at ha hb hlt
      have hat : a ≠ t := fun h => (mem_dedupFirstAux.mp ha).2 (h ▸ ht)
      have hbt : b ≠ t := fun h => (mem_dedupFirstAux.mp hb).2 (h ▸ ht)
      rw [firstPos, if_neg hat, firstPos, if_neg hbt]
      exact Nat.add_lt_add_right (ih seen a b ha hb hlt) 1
    · rw [dedupFirstAux, if_neg ht] at ha hb hlt
      by_cases hat : a = t
      · have hbt : b ≠ t := by
          rintro rfl
          rw [hat] at hlt
          exact absurd hlt (lt_irrefl _)
        rw [firstPos, if_pos hat, firstPos, if_neg hbt]
        exact Nat.succ_pos _
      · have ha' : a ∈ dedupFirstAux (t :: seen) rest :=
          (List.mem_cons.mp ha).resolve_left hat
        have hbt : b ≠ t := by
          rintro rfl
          rw [firstPos, if_neg hat, firstPos, if_pos rfl] at hlt
          omega
        have hb' : b ∈ dedupFirstAux (t :: seen) rest :=
          (List.mem_cons.mp hb).resolve_left hbt
        rw [firstPos, if_neg hat, firstPos, if_neg hbt] at hlt
        rw [firstPos, if_neg hat, firstPos, if_neg hbt]
        exact Nat.add_lt_add_right
          (ih (t :: seen) a b ha' hb' (Nat.lt_of_add_lt_add_right hlt)) 1

theorem mem_addIfAbsent_self (ts : List String) (g : String) : g ∈ addIfAbsent ts g := by
  unfold addIfAbsent
  split
  · assumption
  · simp

theorem mem_addIfAbsent_of_mem {a : String} {ts : List String} (g : String) (h : a ∈ ts) :
    a ∈ addIfAbsent ts g := by
  unfold addIfAbsent
  split
  · exact h
  · exact List.mem_append_left _ h

theorem addGeneral_eq (ts : List String) :
    addGeneral ts =
      addIfAbsent (addIfAbsent (addIfAbsent ts "monitor live weather 3h before start")
        "keep first-aid supplies ready") "assign weather safety in-charge" := rfl

theorem mem_padTips {a : String} {ts : List String} (h : a ∈ ts) : a ∈ padTips ts := by
  unfold padTips
  split
  · exact List.mem_append_left _ h
  · exact h

theorem generalTips_mem_final (metrics : Option Metrics) (name : String) :
    ∀ g ∈ generalTips, g ∈ (interpret_conditions metrics name).2 := by
  intro g hg
  have hg3 : g = "monitor live weather 3h before start" ∨
      g = "keep first-aid supplies ready" ∨ g = "assign weather safety in-charge" := by
    simpa [generalTips] using hg
  have hmem : g ∈ addGeneral ((match metrics with
      | none => ([] : List String)
      | some m => (baseAdvice m).2) ++ eventTips (lower name)) := by
    rw [addGeneral_eq]
    rcases hg3 with rfl | rfl | rfl
    · exact mem_addIfAbsent_of_mem _ (mem_addIfAbsent_of_mem _ (mem_addIfAbsent_self _ _))
    · exact mem_addIfAbsent_of_mem _ (mem_addIfAbsent_self _ _)
    · exact mem_addIfAbsent_self _ _
  have hpre : g ∈ preTips metrics name := mem_padTips hmem
  exact mem_dedupFirstAux.mpr ⟨hpre, by simp⟩

theorem final_length_ge_three (metrics : Option Metrics) (name : String) :
    3 ≤ (interpret_conditions metrics name).2.length := by
  set f := (interpret_conditions metrics name).2 with hf
  have h1 : "monitor live weather 3h before start" ∈ f :=
    generalTips_mem_final metrics name _ (by simp [generalTips])
  have h2 : "keep first-aid supplies ready" ∈ f :=
    generalTips_mem_final metrics name _ (by simp [generalTips])
  have h3 : "assign weather safety in-charge" ∈ f :=
    generalTips_mem_final metrics name _ (by simp [generalTips])
  have hsub : ({"monitor live weather 3h before start", "keep first-aid supplies ready",
      "assign weather safety in-charge"} : Finset String) ⊆ f.toFinset := by
    intro x hx
    simp only [Finset.mem_insert, Finset.mem_singleton] at hx
    rcases hx with rfl | rfl | rfl
    · exact List.mem_toFinset.mpr h1
    · exact List.mem_toFinset.mpr h2
    · exact List.mem_toFinset.mpr h3
  have hcard : ({"monitor live weather 3h before start", "keep first-aid supplies ready",
      "assign weather safety in-charge"} : Finset String).card = 3 := by decide
  calc 3 = _ := hcard.symm
    _ ≤ f.toFinset.card := Finset.card_le_card hsub
    _ ≤ f.length := List.toFinset_card_le f

/-- Claim C4: when the metrics argument is entirely absent (None), the
advice engine returns the label mixed conditions and, for every event name,
a tips list with at least 3 entries. -/
theorem advise_none_mixed_three_tips (event_name : String) :
    (interpret_conditions none event_name).1 = "mixed conditions" ∧
      3 ≤ (interpret_conditions none event_name).2.length :=
  ⟨rfl, final_length_ge_three none event_name⟩

/-- Claim C5: for every metrics record and event name the returned tips list
has no duplicates; it is a subsequence of the tips accumulated before
deduplication, keeps exactly their members, and lists them in the order of
their first occurrence. -/
theorem advise_tips_nodup_first_order (metrics : Option Metrics) (name : String) :
    (interpret_conditions metrics name).2.Nodup ∧
    List.Sublist (interpret_conditions metrics name).2 (preTips metrics name) ∧
    (∀ a, a ∈ preTips metrics name ↔ a ∈ (interpret_conditions metrics name).2) ∧
    (∀ a b, a ∈ (interpret_conditions metrics name).2 →
      b ∈ (interpret_conditions metrics name).2 →
      firstPos a (interpret_conditions metrics name).2 <
        firstPos b (interpret_conditions metrics name).2 →
      firstPos a (preTips metrics name) < firstPos b (preTips metrics name)) := by
  refine ⟨dedupFirstAux_nodup [] _, dedupFirstAux_sublist [] _, fun a => ?_,
    dedupFirstAux_firstPos [] _⟩
  rw [show (interpret_conditions metrics name).2 = dedupFirstAux [] (preTips metrics name)
      from rfl, mem_dedupFirstAux]
  simp

theorem advise_tips_nodup_first_order_witness :
    (interpret_conditions none "Drone Show").2.Nodup ∧
      firstPos "check wind speed" (preTips none "Drone Show") <
        firstPos "keep first-aid supplies ready" (preTips none "Drone Show") :=
  ⟨(advise_tips_nodup_first_order none "Drone Show").1,
    (advise_tips_nodup_first_order none "Drone Show").2.2.2 "check wind speed"
      "keep first-aid supplies ready" (by decide) (by decide) (by decide)⟩

/-- Claim C3: any non-empty metrics record whose t_max is 35 and whose
precip_24h is 20 satisfies both the hot and the wet threshold, and the
advice label is very hot: the hot rule wins. -/
theorem hot_beats_wet (m : Metrics) (name : String) (h35 : m.t_max = some 35)
    (h20 : m.precip_24h = some 20) :
    (interpret_conditions (some m) name).1 = "very hot" := by
  have ht : truthyAndGe (pyOr m.t_max m.tmax) 34 = true := by
    rw [h35]
    norm_num [pyOr, truthyAndGe]
  show (baseAdvice m).1 = "very hot"
  unfold baseAdvice
  rw [if_pos ht]

theorem hot_beats_wet_witness :
    (interpret_conditions (some { t_max := some 35, precip_24h := some 20 }) "city walk").1 =
      "very hot" :=
  hot_beats_wet { t_max := some 35, precip_24h := some 20 } "city walk" rfl rfl

/-- Claim C8: for event name Beach BBQ with t_max 34, precip_24h 0 and
wind_max 3 the advice engine labels very hot, and the tips include the
hydration and shade tips of the hot label and the cooler tip triggered by
the substring bbq. -/
theorem beach_bbq_very_hot_tips :
    (interpret_conditions (some { t_max := some 34, precip_24h := some 0, wind_max := some 3 })
        "Beach BBQ").1 = "very hot" ∧
    "stay hydrated" ∈ (interpret_conditions
        (some { t_max := some 34, precip_24h := some 0, wind_max := some 3 }) "Beach BBQ").2 ∧
    "set up shaded rest areas" ∈ (interpret_conditions
        (some { t_max := some 34, precip_24h := some 0, wind_max := some 3 }) "Beach BBQ").2 ∧
    "bring cooler" ∈ (interpret_conditions
        (some { t_max := some 34, precip_24h := some 0, wind_max := some 3 }) "Beach BBQ").2 := by
  refine ⟨rfl, ?_, ?_, ?_⟩ <;> decide

/-- Claim C2 counterexample: for event name Drone Show with t_max 25,
precip_24h 2 and wind_max 12 the code labels fair, not very windy: the code
has no wind rule at all. -/
theorem drone_show_not_very_windy :
    (interpret_conditions (some { t_max := some 25, precip_24h := some 2, wind_max := some 12 })
        "Drone Show").1 = "fair" ∧
    (interpret_conditions (some { t_max := some 25, precip_24h := some 2, wind_max := some 12 })
        "Drone Show").1 ≠ "very windy" := by
  refine ⟨rfl, ?_⟩
  decide

/-- Claim C2 (amended): for event name Drone Show with t_max 25, precip_24h
2 and wind_max 12 the advice engine returns the label fair (wind is ignored
by the labelling code), and the tips do include the wind-check tip triggered
by the drone keyword. -/
theorem drone_show_fair_with_wind_tip :
    (interpret_conditions (some { t_max := some 25, precip_24h := some 2, wind_max := some 12 })
        "Drone Show").1 = "fair" ∧
    "check wind speed" ∈ (interpret_conditions
        (some { t_max := some 25, precip_24h := some 2, wind_max := some 12 }) "Drone Show").2 := by
  refine ⟨rfl, ?_⟩
  decide

/-- Claim C1 counterexample: the decision list of the specification (hot
threshold 33 and a wind rule) disagrees with the code on explicit inputs.
With t_max 33 the specification says very hot but the code labels fair;
with t_max 25 and wind_max 12 the specification says very windy but the
code labels fair. -/
theorem advice_label_spec_thresholds_false :
    specAdviceLabel { t_max := some 33, precip_24h := some 0, wind_max := some 0 } = "very hot" ∧
    (interpret_conditions (some { t_max := some 33, precip_24h := some 0, wind_max := some 0 })
        "x").1 = "fair" ∧
    specAdviceLabel { t_max := some 25, precip_24h := some 2, wind_max := some 12 } =
      "very windy" ∧
    (interpret_conditions (some { t_max := some 25, precip_24h := some 2, wind_max := some 12 })
        "x").1 = "fair" := by
  refine ⟨rfl, rfl, ?_, rfl⟩
  rfl

/-- Claim C1 (amended): for every non-empty metrics record the advice label
is decided by the decision list the code implements: effective temperature
(t_max, falling back to tmax when absent or zero) present, nonzero and at
least 34 gives very hot; else effective rain (precip_24h, falling back to
precip, defaulting to 0) at least 10 gives very wet; else effective
temperature present, nonzero and at most 18 gives cool; else fair.  There
is no wind rule. -/
theorem advice_label_matches_code_decision_list (m : Metrics) (name : String) :
    (interpret_conditions (some m) name).1 = amendedAdviceLabel m := by
  show (baseAdvice m).1 = amendedAdviceLabel m
  have hT : effectiveTemp m = pyOr m.t_max m.tmax := rfl
  have hR : effectiveRain m = orZero (pyOr m.precip_24h m.precip) := by
    unfold effectiveRain
    cases m.precip_24h with
    | none => cases m.precip <;> simp [pyOr, orZero]
    | some x =>
      by_cases hx : x = 0
      · cases m.precip <;> simp [pyOr, orZero, hx]
      · simp [pyOr, orZero, hx]
  unfold baseAdvice amendedAdviceLabel
  rw [hT, hR]
  cases htv : pyOr m.t_max m.tmax with
  | none =>
    by_cases h10 : (10 : ℚ) ≤ orZero (pyOr m.precip_24h m.precip) <;>
      simp [truthyAndGe, truthyAndLe, h10]
  | some x =>
    by_cases hx : x = 0
    · by_cases h10 : (10 : ℚ) ≤ orZero (pyOr m.precip_24h m.precip) <;>
        simp [truthyAndGe, truthyAndLe, hx, h10]
    · by_cases h34 : (34 : ℚ) ≤ x
      · simp [truthyAndGe, hx, h34]
      · by_cases h10 : (10 : ℚ) ≤ orZero (pyOr m.precip_24h m.precip)
        · simp [truthyAndGe, truthyAndLe, hx, h34, h10]
        · by_cases h18 : x ≤ (18 : ℚ)
          · simp [truthyAndGe, truthyAndLe, hx, h34, h10, h18]
          · simp [truthyAndGe, truthyAndLe, hx, h34, h10, h18]

/-- Claim C10 counterexample: the claim quantifies over every metrics
record with t_max 0 and precip_24h below the wet threshold, but a falsy
t_max falls through to the tmax alias key and a falsy precip_24h falls
through to the precip alias key, so such records can still be labelled
very hot or very wet instead of the claimed fair. -/
theorem tmax_zero_claim_false_on_alias_keys :
    (interpret_conditions (some { t_max := some 0, tmax := some 40, precip_24h := some 5 })
        "x").1 = "very hot" ∧
    (interpret_conditions (some { t_max := some 0, precip_24h := some 0, precip := some 15 })
        "x").1 = "very wet" :=
  ⟨rfl, rfl⟩

/-- Claim C10 (amended): a t_max of exactly 0 is falsy in Python and is
treated as an absent temperature, provided the fallbacks the code consults
next are silent: for every metrics record with t_max 0, no tmax alias key,
no precip alias key, and precip_24h below the wet threshold, the label is
fair, never cool and never very hot. -/
theorem tmax_zero_treated_absent (m : Metrics) (name : String) (h0 : m.t_max = some 0)
    (halias : m.tmax = none) (hpre : m.precip = none)
    (hrain : ∀ x, m.precip_24h = some x → x < 10) :
    (interpret_conditions (some m) name).1 = "fair" := by
  have htm : pyOr m.t_max m.tmax = none := by
    rw [h0, halias]
    simp [pyOr]
  have hr : orZero (pyOr m.precip_24h m.precip) < 10 := by
    rw [hpre]
    cases hp : m.precip_24h with
    | none => norm_num [pyOr, orZero]
    | some x =>
      have hx10 := hrain x hp
      by_cases hx : x = 0
      · simp [pyOr, orZero, hx]
      · simpa [pyOr, orZero, hx] using hx10
  show (baseAdvice m).1 = "fair"
  unfold baseAdvice
  rw [htm]
  rw [if_neg (by simp [truthyAndGe]), if_neg (not_le.mpr hr), if_neg (by simp [truthyAndLe])]

theorem tmax_zero_treated_absent_witness :
    (interpret_conditions (some { t_max := some 0, precip_24h := some 5 }) "Beach BBQ").1 =
      "fair" :=
  tmax_zero_treated_absent { t_max := some 0, precip_24h := some 5 } "Beach BBQ" rfl rfl rfl
    (by intro x hx; cases hx; norm_num)

/-- Modelled from the spec: the repository sources under src contain no
classify function returning category tags (the keyword matching in
interpret_conditions maps names directly to tips); section 4.1 of the spec
describes classify as lower-casing the name and adding a category whenever
any trigger substring of a fixed table occurs in the name.  The trigger
table here assigns the spec categories to the keyword groups the code
uses. -/
def tagTable : List (String × List String) :=
  [("wind-sensitive", ["drone", "flying", "aerial", "uav", "fpv"]),
   ("crowd-comfort", ["wedding", "ceremony", "party", "festival", "concert", "show",
      "performance"]),
   ("high-exertion", ["sports", "match", "run", "race", "tournament", "hike", "trail"]),
   ("perishable-food", ["picnic", "bbq", "market", "bazaar", "stall", "food"]),
   ("sun-exposure", ["beach", "park", "picnic"]),
   ("fragile-gear", ["shoot", "filming", "photo", "video", "expo"]),
   ("rain-sensitive", ["camp", "forest", "school", "outreach", "booth"])]

/-- Modelled from the spec: the fixed fallback tag set returned when no
category matches, guaranteeing non-empty output. -/
def fallbackTags : List String := ["crowd-comfort", "sun-exposure"]

/-- Modelled from the spec: classify lower-cases the event name, collects
every category of the table one of whose trigger substrings occurs in the
name, and falls back to the fixed fallback set when nothing matched. -/
def classify (event_name : String) : List String :=
  let e := lower event_name
  let matched := (tagTable.filter fun row => anyKw e row.2).map Prod.fst
  if matched = [] then fallbackTags else matched

/-- Claim C6: the tag classifier is a pure function of the event name (it
is a Lean function, hence deterministic), never returns an empty tag set,
and on the empty name, which matches no trigger, returns exactly the
fallback set. -/
theorem classify_nonempty_fallback :
    (∀ event_name : String, classify event_name ≠ []) ∧
      classify "" = ["crowd-comfort", "sun-exposure"] := by
  constructor
  · intro event_name
    simp only [classify]
    split
    · simp [fallbackTags]
    · assumption
  · rfl

theorem classify_nonempty_fallback_witness :
    classify "Drone Show" ≠ [] ∧ classify "" = ["crowd-comfort", "sun-exposure"] :=
  ⟨classify_nonempty_fallback.1 "Drone Show", classify_nonempty_fallback.2⟩

/-- Outcome of an HTTP request as the fetchers observe it: either some
exception was raised during the request, date parsing or response parsing
(the except branch), or a response with a status code and a body arrived.
The body is abstracted to the parse result the fetcher extracts from the
JSON: none when extraction itself raises (malformed payload, missing keys,
empty value lists), some d when it yields the data d. -/
inductive HttpOutcome (β : Type) where
  | exc : HttpOutcome β
  | resp : Nat → Option β → HttpOutcome β

/-- Result dictionary of get_meteomatics_summary. -/
structure MMResult where
  t_max : Option ℚ
  t_min : Option ℚ
  precip_24h : ℚ
deriving DecidableEq, Repr

/-- Result dictionary of get_nasa_power. -/
structure NPResult where
  tmax : ℚ
  tmin : ℚ
  precip : ℚ
  solar : ℚ
deriving DecidableEq, Repr

/-- Shallow embedding of get_meteomatics_summary (lines 133 to 155 of
src/backend/app.py): without both credentials it returns None before any
request; an exception, a non-200 status, or a failing parse also yield
None; otherwise the parameter dictionary is read with t_max and t_min
optional and precip_24h defaulting to 0. -/
def get_meteomatics_summary (creds : Option (String × String))
    (out : HttpOutcome (List (String × ℚ))) : Option MMResult :=
  match creds with
  | none => none
  | some _ =>
    match out with
    | .exc => none
    | .resp status body =>
      if status ≠ 200 then none
      else
        match body with
        | none => none
        | some data =>
          some { t_max := (data.lookup "t_max_2m_24h:C")
               , t_min := (data.lookup "t_min_2m_24h:C")
               , precip_24h := (data.lookup "precip_24h:mm").getD 0 }

/-- Shallow embedding of get_nasa_power (lines 157 to 179 of
src/backend/app.py): an exception or non-200 status yields None; the body
parse extracts the four parameter value lists, and taking the first element
of an empty list raises, which the except branch turns into None. -/
def get_nasa_power (out : HttpOutcome (List ℚ × List ℚ × List ℚ × List ℚ)) :
    Option NPResult :=
  match out with
  | .exc => none
  | .resp status body =>
    if status ≠ 200 then none
    else
      match body with
      | none => none
      | some (tmaxs, tmins, precips, solars) =>
        match tmaxs.head?, tmins.head?, precips.head?, solars.head? with
        | some a, some b, some c, some d =>
          some { tmax := a, tmin := b, precip := c, solar := d }
        | _, _, _, _ => none

/-- The normalized weather metrics record of the spec data model. -/
structure WeatherMetrics where
  t_max : Option ℚ
  t_min : Option ℚ
  precip_24h : ℚ
  wind_max : Option ℚ
deriving DecidableEq, Repr

/-- Modelled from the spec: the repository sources under src contain no
summarize caller combining the two fetchers; section 4.2 of the spec states
the fusion policy: prefer the commercial forecast when present, fall back
to the climatology fields, and when both are absent return the empty
metrics record with None maxima and 0 precipitation. -/
def summarize (mm : Option MMResult) (np : Option NPResult) : WeatherMetrics :=
  match mm with
  | some r => { t_max := r.t_max, t_min := r.t_min, precip_24h := r.precip_24h, wind_max := none }
  | none =>
    match np with
    | some r =>
      { t_max := some r.tmax, t_min := some r.tmin, precip_24h := r.precip, wind_max := none }
    | none => { t_max := none, t_min := none, precip_24h := 0, wind_max := none }

/-- Claim C7: each fetcher returns None instead of raising on every failure
mode: missing credentials, a raised exception, a non-200 status, and a
failing body parse; and summarizing with both fetchers unavailable yields
the all-None and 0 metrics record. -/
theorem fetchers_fail_closed_summarize_empty :
    (∀ out, get_meteomatics_summary none out = none) ∧
    (∀ creds, get_meteomatics_summary creds .exc = none) ∧
    (∀ creds status body, status ≠ 200 →
      get_meteomatics_summary creds (.resp status body) = none) ∧
    (∀ creds status, get_meteomatics_summary creds (.resp status none) = none) ∧
    (get_nasa_power .exc = none) ∧
    (∀ status body, status ≠ 200 → get_nasa_power (.resp status body) = none) ∧
    (∀ status, get_nasa_power (.resp status none) = none) ∧
    summarize none none = { t_max := none, t_min := none, precip_24h := 0, wind_max := none } := by
  refine ⟨fun out => rfl, fun creds => ?_, fun creds status body h => ?_,
    fun creds status => ?_, rfl, fun status body h => ?_, fun status => ?_, rfl⟩
  · cases creds <;> rfl
  · cases creds with
    | none => rfl
    | some c => simp [get_meteomatics_summary, h]
  · cases creds with
    | none => rfl
    | some c => by_cases hs : status = 200 <;> simp [get_meteomatics_summary, hs]
  · simp [get_nasa_power, h]
  · by_cases hs : status = 200 <;> simp [get_nasa_power, hs]

theorem fetchers_fail_closed_summarize_empty_witness :
    get_meteomatics_summary (some ("user", "pass")) (.resp 500 (some [("t_max_2m_24h:C", 21)]))
        = none ∧
      get_nasa_power (.resp 200 (some ([], [], [], []))) = none :=
  ⟨fetchers_fail_closed_summarize_empty.2.2.1 (some ("user", "pass")) 500
      (some [("t_max_2m_24h:C", 21)]) (by decide),
    by decide⟩

/-- Decimal digit character of a digit value below 10. -/
def natDigitChar (d : Nat) : Char :=
  match d with
  | 0 => '0' | 1 => '1' | 2 => '2' | 3 => '3' | 4 => '4'
  | 5 => '5' | 6 => '6' | 7 => '7' | 8 => '8' | _ => '9'

/-- Value of a decimal digit character. -/
def digitVal (c : Char) : Nat := c.toNat - 48

/-- Test for a decimal digit character. -/
def isDigitChar (c : Char) : Bool := decide (48 ≤ c.toNat) && decide (c.toNat ≤ 57)

/-- Decimal representation of a natural number, as Python repr writes it
inside json.dumps output. -/
def natRepr (n : Nat) : List Char :=
  if n = 0 then ['0'] else ((Nat.digits 10 n).map natDigitChar).reverse

/-- Parse a non-empty all-digit character list into a natural number. -/
def parseNatDigits (cs : List Char) : Option Nat :=
  if cs ≠ [] ∧ cs.all isDigitChar then
    some (Nat.ofDigits 10 ((cs.map digitVal).reverse))
  else none

theorem digitVal_natDigitChar {d : Nat} (h : d < 10) : digitVal (natDigitChar d) = d := by
  interval_cases d <;> decide

theorem isDigitChar_natDigitChar {d : Nat} (h : d < 10) : isDigitChar (natDigitChar d) = true := by
  interval_cases d <;> decide

theorem natDigitChar_mem_range {c : Char} {n : Nat} (h : c ∈ natRepr n) :
    isDigitChar c = true := by
  unfold natRepr at h
  split at h
  · rw [List.mem_singleton] at h
    subst h
    decide
  · rw [List.mem_reverse, List.mem_map] at h
    obtain ⟨d, hd, rfl⟩ := h
    exact isDigitChar_natDigitChar (Nat.digits_lt_base (by norm_num) hd)

theorem parseNatDigits_natRepr (n : Nat) : parseNatDigits (natRepr n) = some n := by
  by_cases h0 : n = 0
  · subst h0
    decide
  · have hne : natRepr n ≠ [] := by
      unfold natRepr
      rw [if_neg h0]
      simp only [ne_eq, List.reverse_eq_nil_iff, List.map_eq_nil_iff]
      exact Nat.digits_ne_nil_iff_ne_zero.mpr h0
    have hall : (natRepr n).all isDigitChar = true := by
      rw [List.all_eq_true]
      intro c hc
      exact natDigitChar_mem_range hc
    unfold parseNatDigits
    rw [if_pos ⟨hne, hall⟩]
    unfold natRepr
    rw [if_neg h0, List.map_reverse, List.reverse_reverse, List.map_map]
    have hmap : (Nat.digits 10 n).map (digitVal ∘ natDigitChar) = Nat.digits 10 n :=
      ((Nat.digits 10 n).map_congr_left fun d hd =>
        digitVal_natDigitChar (Nat.digits_lt_base (by norm_num) hd)).trans
        ((Nat.digits 10 n).map_id)
    rw [hmap, Nat.ofDigits_digits]

/-- Hexadecimal digit character of a value below 16, lower case as Python
json.dumps writes unicode escapes. -/
def hexDigitChar (d : Nat) : Char :=
  match d with
  | 0 => '0' | 1 => '1' | 2 => '2' | 3 => '3' | 4 => '4'
  | 5 => '5' | 6 => '6' | 7 => '7' | 8 => '8' | 9 => '9'
  | 10 => 'a' | 11 => 'b' | 12 => 'c' | 13 => 'd' | 14 => 'e' | _ => 'f'

/-- Test for a lower-case hexadecimal digit character as the decoder
accepts it. -/
def isHex (c : Char) : Bool :=
  (decide (48 ≤ c.toNat) && decide (c.toNat ≤ 57)) ||
    (decide (97 ≤ c.toNat) && decide (c.toNat ≤ 102)) ||
    (decide (65 ≤ c.toNat) && decide (c.toNat ≤ 70))

/-- Value of a hexadecimal digit character. -/
def hexVal (c : Char) : Nat :=
  if c.toNat ≤ 57 then c.toNat - 48
  else if 97 ≤ c.toNat then c.toNat - 87
  else c.toNat - 55

/-- Four-digit hexadecimal rendering of a value below 65536. -/
def hex4 (n : Nat) : List Char :=
  [hexDigitChar (n / 4096 % 16), hexDigitChar (n / 256 % 16),
   hexDigitChar (n / 16 % 16), hexDigitChar (n % 16)]

/-- Combine four hexadecimal digits into the value they denote. -/
def hexQuad (h1 h2 h3 h4 : Char) : Nat :=
  4096 * hexVal h1 + 256 * hexVal h2 + 16 * hexVal h3 + hexVal h4

theorem hexVal_hexDigitChar {d : Nat} (h : d < 16) : hexVal (hexDigitChar d) = d := by
  interval_cases d <;> decide

theorem isHex_hexDigitChar {d : Nat} (h : d < 16) : isHex (hexDigitChar d) = true := by
  interval_cases d <;> decide

theorem hexQuad_hex4 {n : Nat} (h : n < 65536) :
    hexQuad (hexDigitChar (n / 4096 % 16)) (hexDigitChar (n / 256 % 16))
      (hexDigitChar (n / 16 % 16)) (hexDigitChar (n % 16)) = n := by
  unfold hexQuad
  rw [hexVal_hexDigitChar (Nat.mod_lt _ (by norm_num)),
    hexVal_hexDigitChar (Nat.mod_lt _ (by norm_num)),
    hexVal_hexDigitChar (Nat.mod_lt _ (by norm_num)),
    hexVal_hexDigitChar (Nat.mod_lt _ (by norm_num))]
  omega

/-- Decimal representation of an integer: a minus sign followed by the
magnitude for negatives, the plain magnitude otherwise. -/
def intRepr (i : Int) : List Char :=
  if i < 0 then '-' :: natRepr (-i).toNat else natRepr i.toNat

/-- Parse an optionally minus-signed digit string into an integer. -/
def parseIntDigits (cs : List Char) : Option Int :=
  match cs with
  | [] => none
  | c :: rest =>
    if c = '-' then
      match parseNatDigits rest with
      | some n => some (-(n : Int))
      | none => none
    else
      match parseNatDigits (c :: rest) with
      | some n => some ((n : Int))
      | none => none

theorem natRepr_ne_nil (n : Nat) : natRepr n ≠ [] := by
  unfold natRepr
  split
  · simp
  · simp only [ne_eq, List.reverse_eq_nil_iff, List.map_eq_nil_iff]
    exact Nat.digits_ne_nil_iff_ne_zero.mpr (by assumption)

theorem not_mem_natRepr {c : Char} (n : Nat) (h : isDigitChar c = false) : c ∉ natRepr n := by
  intro hmem
  rw [natDigitChar_mem_range hmem] at h
  cases h

theorem parseIntDigits_intRepr (i : Int) : parseIntDigits (intRepr i) = some i := by
  unfold intRepr
  split
  · rename_i hneg
    show parseIntDigits ('-' :: natRepr (-i).toNat) = some i
    simp only [parseIntDigits, if_pos rfl, parseNatDigits_natRepr]
    show some (-(((-i).toNat : Nat) : Int)) = some i
    congr 1
    omega
  · rename_i hneg
    obtain ⟨c, rest, hcr⟩ := List.exists_cons_of_ne_nil (natRepr_ne_nil i.toNat)
    have hcd : isDigitChar c = true := natDigitChar_mem_range (hcr ▸ List.mem_cons_self c rest)
    have hcm : c ≠ '-' := by
      intro hc
      rw [hc] at hcd
      cases hcd
    rw [hcr]
    simp only [parseIntDigits, if_neg hcm, ← hcr, parseNatDigits_natRepr]
    show some ((i.toNat : Nat) : Int) = some i
    congr 1
    omega

/-- Canonical rational rendering used by the token model for the float
expiry stamp: numerator, slash, denominator.  It is injective, which is all
the round trip needs from the number serialization. -/
def ratRepr (q : ℚ) : List Char :=
  intRepr q.num ++ '/' :: natRepr q.den

/-- Break a character list at the first occurrence of a stop character,
failing when it does not occur. -/
def breakAtChar (stop : Char) : List Char → Option (List Char × List Char)
  | [] => none
  | c :: rest =>
    if c = stop then some ([], rest)
    else (breakAtChar stop rest).map fun p => (c :: p.1, p.2)

theorem breakAtChar_append {stop : Char} {xs : List Char} (ys : List Char) (h : stop ∉ xs) :
    breakAtChar stop (xs ++ stop :: ys) = some (xs, ys) := by
  induction xs with
  | nil => simp [breakAtChar]
  | cons c rest ih =>
    have hc : c ≠ stop := fun hc => h (hc ▸ List.mem_cons_self c rest)
    rw [List.cons_append, breakAtChar, if_neg hc, ih (fun hm => h (List.mem_cons_of_mem c hm))]
    rfl

/-- Parse the slash-separated rational rendering. -/
def parseRatChars (cs : List Char) : Option ℚ :=
  match breakAtChar '/' cs with
  | none => none
  | some (numCs, denCs) =>
    match parseIntDigits numCs, parseNatDigits denCs with
    | some num, some den => some (mkRat num den)
    | _, _ => none

theorem slash_not_mem_intRepr (i : Int) : '/' ∉ intRepr i := by
  unfold intRepr
  split
  · intro hmem
    rcases List.mem_cons.mp hmem with h | h
    · cases h
    · exact not_mem_natRepr _ (by decide) h
  · exact not_mem_natRepr _ (by decide)

theorem parseRatChars_ratRepr (q : ℚ) : parseRatChars (ratRepr q) = some q := by
  unfold ratRepr parseRatChars
  rw [breakAtChar_append _ (slash_not_mem_intRepr q.num)]
  simp only [parseIntDigits_intRepr, parseNatDigits_natRepr, Rat.mkRat_self]

/-- Strip an expected literal prefix, returning the remainder. -/
def stripPrefixChars : List Char → List Char → Option (List Char)
  | [], s => some s
  | _ :: _, [] => none
  | p :: ps, c :: cs => if c = p then stripPrefixChars ps cs else none

theorem stripPrefixChars_append (pre rest : List Char) :
    stripPrefixChars pre (pre ++ rest) = some rest := by
  induction pre with
  | nil => rfl
  | cons p ps ih => simpa [stripPrefixChars] using ih

/-- Escape one character the way Python json.dumps with ensure_ascii renders
string contents: quote and backslash get backslash escapes, the five control
characters with short escapes use them, printable ASCII passes through, and
everything else becomes a lower-case four-digit unicode escape, split into a
surrogate pair for characters beyond the basic plane. -/
def escChar (c : Char) : List Char :=
  if c = '"' then ['\\', '"']
  else if c = '\\' then ['\\', '\\']
  else if c = '\x08' then ['\\', 'b']
  else if c = '\x09' then ['\\', 't']
  else if c = '\x0a' then ['\\', 'n']
  else if c = '\x0c' then ['\\', 'f']
  else if c = '\x0d' then ['\\', 'r']
  else if 32 ≤ c.toNat ∧ c.toNat ≤ 126 then [c]
  else if c.toNat < 65536 then '\\' :: 'u' :: hex4 c.toNat
  else ('\\' :: 'u' :: hex4 (55296 + (c.toNat - 65536) / 1024)) ++
    ('\\' :: 'u' :: hex4 (56320 + (c.toNat - 65536) % 1024))

/-- Escape a character list into json string contents. -/
def escList : List Char → List Char
  | [] => []
  | c :: cs => escChar c ++ escList cs

/-- Decode a single-character backslash escape as json.loads accepts it. -/
def unescSimple (c : Char) : Option Char :=
  if c = '"' then some '"'
  else if c = '\\' then some '\\'
  else if c = '/' then some '/'
  else if c = 'b' then some '\x08'
  else if c = 'f' then some '\x0c'
  else if c = 'n' then some '\x0a'
  else if c = 'r' then some '\x0d'
  else if c = 't' then some '\x09'
  else none

/-- Prepend a character to the string part of a parse result. -/
def consFst (c : Char) (o : Option (List Char × List Char)) :
    Option (List Char × List Char) :=
  match o with
  | some p => some (c :: p.1, p.2)
  | none => none

/-- Parse json string contents up to the closing quote with a fuel bound
(one unit per decoded character, so the input length is always enough),
returning the decoded characters and the remainder after the quote.
Unicode escapes are decoded with surrogate pairs recombined; a lone
surrogate is rejected (a Lean Char cannot carry one); raw control
characters are rejected as json.loads does in strict mode. -/
def parseJStrF : Nat → List Char → Option (List Char × List Char)
  | 0, _ => none
  | _ + 1, [] => none
  | fuel + 1, c :: rest =>
    if c = '"' then some ([], rest)
    else if c = '\\' then
      match rest with
      | [] => none
      | e :: rest1 =>
        if e = 'u' then
          match rest1 with
          | h1 :: h2 :: h3 :: h4 :: rest2 =>
            if isHex h1 && isHex h2 && isHex h3 && isHex h4 then
              if 55296 ≤ hexQuad h1 h2 h3 h4 ∧ hexQuad h1 h2 h3 h4 < 56320 then
                match rest2 with
                | b1 :: u1 :: g1 :: g2 :: g3 :: g4 :: rest3 =>
                  if b1 = '\\' ∧ u1 = 'u' ∧
                      (isHex g1 && isHex g2 && isHex g3 && isHex g4) = true then
                    if 56320 ≤ hexQuad g1 g2 g3 g4 ∧ hexQuad g1 g2 g3 g4 < 57344 then
                      consFst (Char.ofNat (65536 + (hexQuad h1 h2 h3 h4 - 55296) * 1024 +
                        (hexQuad g1 g2 g3 g4 - 56320))) (parseJStrF fuel rest3)
                    else none
                  else none
                | _ => none
              else if 56320 ≤ hexQuad h1 h2 h3 h4 ∧ hexQuad h1 h2 h3 h4 < 57344 then none
              else consFst (Char.ofNat (hexQuad h1 h2 h3 h4)) (parseJStrF fuel rest2)
            else none
          | _ => none
        else
          match unescSimple e with
          | some u => consFst u (parseJStrF fuel rest1)
          | none => none
    else if c.toNat < 32 then none
    else consFst c (parseJStrF fuel rest)

/-- Parse json string contents up to the closing quote: the input length
bounds the number of decoded characters, so it serves as fuel. -/
def parseJStr (cs : List Char) : Option (List Char × List Char) :=
  parseJStrF cs.length cs

theorem parseJStrF_plain {c : Char} (h1 : c ≠ '"') (h2 : c ≠ '\\') (h3 : ¬c.toNat < 32)
    (fuel : Nat) (T : List Char) :
    parseJStrF (fuel + 1) (c :: T) = consFst c (parseJStrF fuel T) := by
  rw [parseJStrF.eq_def]
  simp [h1, h2, h3]

theorem parseJStrF_esc {e u : Char} (hu : unescSimple e = some u) (he : e ≠ 'u')
    (fuel : Nat) (T : List Char) :
    parseJStrF (fuel + 1) ('\\' :: e :: T) = consFst u (parseJStrF fuel T) := by
  rw [parseJStrF.eq_def]
  simp [he, hu]

theorem parseJStrF_uni {n : Nat} (hlt : n < 65536) (hno : n < 55296 ∨ 57344 ≤ n)
    (fuel : Nat) (T : List Char) :
    parseJStrF (fuel + 1) ('\\' :: 'u' :: (hex4 n ++ T)) =
      consFst (Char.ofNat n) (parseJStrF fuel T) := by
  have e1 : isHex (hexDigitChar (n / 4096 % 16)) = true :=
    isHex_hexDigitChar (Nat.mod_lt _ (by norm_num))
  have e2 : isHex (hexDigitChar (n / 256 % 16)) = true :=
    isHex_hexDigitChar (Nat.mod_lt _ (by norm_num))
  have e3 : isHex (hexDigitChar (n / 16 % 16)) = true :=
    isHex_hexDigitChar (Nat.mod_lt _ (by norm_num))
  have e4 : isHex (hexDigitChar (n % 16)) = true :=
    isHex_hexDigitChar (Nat.mod_lt _ (by norm_num))
  have hs1 : ¬(55296 ≤ n ∧ n < 56320) := by omega
  have hs2 : ¬(56320 ≤ n ∧ n < 57344) := by omega
  rw [parseJStrF.eq_def]
  simp [hex4, e1, e2, e3, e4, hexQuad_hex4 hlt, hs1, hs2]

theorem parseJStrF_surrogate {n m : Nat} (hn1 : 55296 ≤ n) (hn2 : n < 56320)
    (hm1 : 56320 ≤ m) (hm2 : m < 57344) (fuel : Nat) (T : List Char) :
    parseJStrF (fuel + 1) ('\\' :: 'u' :: (hex4 n ++ ('\\' :: 'u' :: (hex4 m ++ T)))) =
      consFst (Char.ofNat (65536 + (n - 55296) * 1024 + (m - 56320))) (parseJStrF fuel T) := by
  have e1 : isHex (hexDigitChar (n / 4096 % 16)) = true :=
    isHex_hexDigitChar (Nat.mod_lt _ (by norm_num))
  have e2 : isHex (hexDigitChar (n / 256 % 16)) = true :=
    isHex_hexDigitChar (Nat.mod_lt _ (by norm_num))
  have e3 : isHex (hexDigitChar (n / 16 % 16)) = true :=
    isHex_hexDigitChar (Nat.mod_lt _ (by norm_num))
  have e4 : isHex (hexDigitChar (n % 16)) = true :=
    isHex_hexDigitChar (Nat.mod_lt _ (by norm_num))
  have f1 : isHex (hexDigitChar (m / 4096 % 16)) = true :=
    isHex_hexDigitChar (Nat.mod_lt _ (by norm_num))
  have f2 : isHex (hexDigitChar (m / 256 % 16)) = true :=
    isHex_hexDigitChar (Nat.mod_lt _ (by norm_num))
  have f3 : isHex (hexDigitChar (m / 16 % 16)) = true :=
    isHex_hexDigitChar (Nat.mod_lt _ (by norm_num))
  have f4 : isHex (hexDigitChar (m % 16)) = true :=
    isHex_hexDigitChar (Nat.mod_lt _ (by norm_num))
  have hp1 : 55296 ≤ n ∧ n < 56320 := ⟨hn1, hn2⟩
  have hp2 : 56320 ≤ m ∧ m < 57344 := ⟨hm1, hm2⟩
  rw [parseJStrF.eq_def]
  simp [hex4, e1, e2, e3, e4, f1, f2, f3, f4, hexQuad_hex4 (by omega : n < 65536),
    hexQuad_hex4 (by omega : m < 65536), hp1, hp2]

theorem char_valid_toNat (c : Char) :
    c.toNat < 55296 ∨ (57344 ≤ c.toNat ∧ c.toNat < 1114112) := c.valid

theorem parseJStrF_escList (us : List Char) :
    ∀ fuel rest, (escList us).length < fuel →
      parseJStrF fuel (escList us ++ '"' :: rest) = some (us, rest) := by
  induction us with
  | nil =>
    intro fuel rest hf
    match fuel, hf with
    | f + 1, _ => rfl
  | cons c cs ih =>
    intro fuel rest hf
    match fuel, hf with
    | f + 1, hf =>
      rw [show escList (c :: cs) = escChar c ++ escList cs from rfl] at hf ⊢
      rw [List.append_assoc]
      rw [List.length_append] at hf
      by_cases h1 : c = '"'
      · subst h1
        rw [show escChar '"' = ['\\', '"'] from rfl] at hf ⊢
        have ihf := ih f rest (by simp at hf; omega)
        rw [List.cons_append, List.cons_append, List.nil_append,
          parseJStrF_esc (show unescSimple '"' = some '"' from rfl) (by decide) f, ihf]
        rfl
      · by_cases h2 : c = '\\'
        · subst h2
          rw [show escChar '\\' = ['\\', '\\'] from rfl] at hf ⊢
          have ihf := ih f rest (by simp at hf; omega)
          rw [List.cons_append, List.cons_append, List.nil_append,
            parseJStrF_esc (show unescSimple '\\' = some '\\' from rfl) (by decide) f, ihf]
          rfl
        · by_cases h3 : c = '\x08'
          · subst h3
            rw [show escChar '\x08' = ['\\', 'b'] from rfl] at hf ⊢
            have ihf := ih f rest (by simp at hf; omega)
            rw [List.cons_append, List.cons_append, List.nil_append,
              parseJStrF_esc (show unescSimple 'b' = some '\x08' from rfl) (by decide) f, ihf]
            rfl
          · by_cases h4 : c = '\x09'
            · subst h4
              rw [show escChar '\x09' = ['\\', 't'] from rfl] at hf ⊢
              have ihf := ih f rest (by simp at hf; omega)
              rw [List.cons_append, List.cons_append, List.nil_append,
                parseJStrF_esc (show unescSimple 't' = some '\x09' from rfl) (by decide) f, ihf]
              rfl
            · by_cases h5 : c = '\x0a'
              · subst h5
                rw [show escChar '\x0a' = ['\\', 'n'] from rfl] at hf ⊢
                have ihf := ih f rest (by simp at hf; omega)
                rw [List.cons_append, List.cons_append, List.nil_append,
                  parseJStrF_esc (show unescSimple 'n' = some '\x0a' from rfl) (by decide) f, ihf]
                rfl
              · by_cases h6 : c = '\x0c'
                · subst h6
                  rw [show escChar '\x0c' = ['\\', 'f'] from rfl] at hf ⊢
                  have ihf := ih f rest (by simp at hf; omega)
                  rw [List.cons_append, List.cons_append, List.nil_append,
                    parseJStrF_esc (show unescSimple 'f' = some '\x0c' from rfl) (by decide) f, ihf]
                  rfl
                · by_cases h7 : c = '\x0d'
                  · subst h7
                    rw [show escChar '\x0d' = ['\\', 'r'] from rfl] at hf ⊢
                    have ihf := ih f rest (by simp at hf; omega)
                    rw [List.cons_append, List.cons_append, List.nil_append,
                      parseJStrF_esc (show unescSimple 'r' = some '\x0d' from rfl) (by decide) f, ihf]
                    rfl
                  · by_cases h8 : 32 ≤ c.toNat ∧ c.toNat ≤ 126
                    · rw [escChar, if_neg h1, if_neg h2, if_neg h3, if_neg h4, if_neg h5,
                        if_neg h6, if_neg h7, if_pos h8] at hf ⊢
                      have ihf := ih f rest (by simp at hf; omega)
                      rw [List.cons_append, List.nil_append,
                        parseJStrF_plain h1 h2 (by omega) f, ihf]
                      rfl
                    · by_cases h9 : c.toNat < 65536
                      · rw [escChar, if_neg h1, if_neg h2, if_neg h3, if_neg h4, if_neg h5,
                          if_neg h6, if_neg h7, if_neg h8, if_pos h9] at hf ⊢
                        have ihf := ih f rest (by simp [hex4] at hf; omega)
                        rw [List.cons_append, List.cons_append,
                          parseJStrF_uni h9 (by
                            rcases char_valid_toNat c with h | h
                            · exact Or.inl h
                            · exact Or.inr h.1) f, ihf]
                        rw [Char.ofNat_toNat]
                        rfl
                      · rw [escChar, if_neg h1, if_neg h2, if_neg h3, if_neg h4, if_neg h5,
                          if_neg h6, if_neg h7, if_neg h8, if_neg h9] at hf ⊢
                        have hub : c.toNat < 1114112 := by
                          rcases char_valid_toNat c with h | h
                          · omega
                          · exact h.2
                        have ihf := ih f rest (by simp [hex4] at hf; omega)
                        rw [List.append_assoc, List.cons_append, List.cons_append,
                          List.cons_append, List.cons_append,
                          parseJStrF_surrogate (by omega) (by omega) (by omega) (by omega) f,
                          ihf]
                        have hrec : 65536 + (55296 + (c.toNat - 65536) / 1024 - 55296) * 1024 +
                            (56320 + (c.toNat - 65536) % 1024 - 56320) = c.toNat := by
                          omega
                        rw [hrec, Char.ofNat_toNat]
                        rfl

theorem parseJStr_escList (us rest : List Char) :
    parseJStr (escList us ++ '"' :: rest) = some (us, rest) := by
  unfold parseJStr
  apply parseJStrF_escList
  rw [List.length_append]
  simp

/-- The payload signed into a token by issue_token: user id, username and
expiry stamp.  The time stamps of the code are floats; the model carries
them as rationals. -/
structure TokenPayload where
  uid : Int
  username : String
  exp : ℚ
deriving DecidableEq, Repr

/-- Model of json.dumps with compact separators on the payload dictionary
of issue_token: uid, username and exp rendered in key order with the
username escaped; numbers use the canonical renderings above. -/
def dumpsPayload (p : TokenPayload) : List Char :=
  "\x7b\"uid\":".toList ++ intRepr p.uid ++ ",\"username\":\"".toList ++
    escList p.username.toList ++ "\",\"exp\":".toList ++ ratRepr p.exp ++ ['\x7d']

/-- Model of json.loads restricted to the payload shape dumpsPayload
produces: any deviation parses to none, as json.loads raises. -/
def loadsPayload (cs : List Char) : Option TokenPayload :=
  match stripPrefixChars "\x7b\"uid\":".toList cs with
  | none => none
  | some r1 =>
    match breakAtChar ',' r1 with
    | none => none
    | some (uidCs, r2) =>
      match parseIntDigits uidCs with
      | none => none
      | some uid =>
        match stripPrefixChars "\"username\":\"".toList r2 with
        | none => none
        | some r3 =>
          match parseJStr r3 with
          | none => none
          | some (unameCs, r4) =>
            match stripPrefixChars ",\"exp\":".toList r4 with
            | none => none
            | some r5 =>
              match breakAtChar '\x7d' r5 with
              | none => none
              | some (expCs, r6) =>
                match parseRatChars expCs with
                | none => none
                | some e =>
                  if r6 = [] then
                    some { uid := uid, username := String.mk unameCs, exp := e }
                  else none

theorem not_mem_intRepr {c : Char} (i : Int) (h1 : c ≠ '-') (h2 : isDigitChar c = false) :
    c ∉ intRepr i := by
  unfold intRepr
  split
  · intro hmem
    rcases List.mem_cons.mp hmem with h | h
    · exact h1 h
    · exact not_mem_natRepr _ h2 h
  · exact not_mem_natRepr _ h2

theorem not_mem_ratRepr {c : Char} (q : ℚ) (h1 : c ≠ '-') (h2 : isDigitChar c = false)
    (h3 : c ≠ '/') : c ∉ ratRepr q := by
  unfold ratRepr
  intro hmem
  rcases List.mem_append.mp hmem with h | h
  · exact not_mem_intRepr _ h1 h2 h
  · rcases List.mem_cons.mp h with h | h
    · exact h3 h
    · exact not_mem_natRepr _ h2 h

theorem stringMk_data (s : String) : String.mk s.data = s := by
  cases s
  rfl

theorem loadsPayload_dumpsPayload (p : TokenPayload) :
    loadsPayload (dumpsPayload p) = some p := by
  unfold dumpsPayload loadsPayload
  simp only [List.append_assoc]
  rw [stripPrefixChars_append]
  dsimp only
  rw [show (",\"username\":\"".toList : List Char) = ',' :: "\"username\":\"".toList from rfl]
  rw [show (intRepr p.uid ++ (',' :: "\"username\":\"".toList ++
      (escList p.username.toList ++ ("\",\"exp\":".toList ++ (ratRepr p.exp ++ ['\x7d']))))) =
      intRepr p.uid ++ ',' :: ("\"username\":\"".toList ++
      (escList p.username.toList ++ ("\",\"exp\":".toList ++ (ratRepr p.exp ++ ['\x7d']))))
    from by simp]
  rw [breakAtChar_append _ (not_mem_intRepr p.uid (by decide) (by decide))]
  dsimp only
  rw [parseIntDigits_intRepr]
  dsimp only
  rw [stripPrefixChars_append]
  dsimp only
  rw [show ("\",\"exp\":".toList : List Char) = '"' :: ",\"exp\":".toList from rfl]
  rw [show (escList p.username.toList ++ ('"' :: ",\"exp\":".toList ++
      (ratRepr p.exp ++ ['\x7d']))) =
      escList p.username.toList ++ '"' :: (",\"exp\":".toList ++ (ratRepr p.exp ++ ['\x7d']))
    from by simp]
  rw [parseJStr_escList]
  dsimp only
  rw [stripPrefixChars_append]
  dsimp only
  rw [show (ratRepr p.exp ++ ['\x7d'] : List Char) = ratRepr p.exp ++ '\x7d' :: [] from rfl]
  rw [breakAtChar_append _ (not_mem_ratRepr p.exp (by decide) (by decide) (by decide))]
  dsimp only
  rw [parseRatChars_ratRepr]
  dsimp only
  rw [if_pos rfl]
  rw [show (p.username.toList : List Char) = p.username.data from rfl, stringMk_data]

/-- Model of token.rsplit at the last dot (lines 103 to 105 of
src/backend/app.py): the part before the last dot and the part after it;
none models the ValueError of unpacking when no dot occurs, which _verify
catches. -/
def rsplitDot (s : String) : Option (String × String) :=
  match breakAtChar '.' s.data.reverse with
  | none => none
  | some (sigRev, dataRev) => some (String.mk dataRev.reverse, String.mk sigRev.reverse)

theorem rsplitDot_append (d g : String) (hg : ('.' : Char) ∉ g.data) :
    rsplitDot (d ++ "." ++ g) = some (d, g) := by
  unfold rsplitDot
  rw [show (d ++ "." ++ g).data = d.data ++ '.' :: g.data from by
    simp [String.data_append]]
  rw [show (d.data ++ '.' :: g.data).reverse = g.data.reverse ++ '.' :: d.data.reverse from by
    simp]
  rw [breakAtChar_append _ (fun hm => hg (List.mem_reverse.mp hm))]
  dsimp only
  rw [List.reverse_reverse, List.reverse_reverse, stringMk_data, stringMk_data]

/-- Shallow embedding of _sign (lines 98 to 101 of src/backend/app.py)
applied to the issue_token payload: the serialized payload, a dot, and the
keyed hash of the serialized payload concatenated with the application
secret.  The sha256 hex digest is abstracted as a function argument; the
round trip only needs that its output never contains a dot, which holds
for hexadecimal output. -/
def signToken (hash : String → String) (secret : String) (p : TokenPayload) : String :=
  String.mk (dumpsPayload p) ++ "." ++ hash (String.mk (dumpsPayload p) ++ secret)

/-- Shallow embedding of _verify (lines 103 to 113 of src/backend/app.py):
split at the last dot, reject when the recomputed keyed hash differs from
the signature, parse the payload, reject when the expiry stamp is in the
past, otherwise return the payload. -/
def verifyToken (hash : String → String) (secret : String) (now : ℚ) (token : String) :
    Option TokenPayload :=
  match rsplitDot token with
  | none => none
  | some (data, sig) =>
    if hash (data ++ secret) ≠ sig then none
    else
      match loadsPayload data.data with
      | none => none
      | some payload => if payload.exp < now then none else some payload

/-- Shallow embedding of issue_token (lines 115 to 116 of
src/backend/app.py): sign the payload of uid, username and an expiry seven
days from now. -/
def issue_token (hash : String → String) (secret : String) (now : ℚ) (uid : Int)
    (username : String) : String :=
  signToken hash secret { uid := uid, username := username, exp := now + 60 * 60 * 24 * 7 }

/-- Claim C9: verifying a token immediately after issuing it succeeds and
returns the original payload: for every uid, username, secret and pair of
time stamps with the verification time at most seven days after issuance,
and for every dot-free hash function (sha256 hex digests contain no dot),
verifyToken on the issued token yields the payload with the original uid
and username. -/
theorem token_roundtrip (hash : String → String) (secret username : String) (uid : Int)
    (t0 t1 : ℚ) (hdot : ∀ s, ('.' : Char) ∉ (hash s).data)
    (hexp : t1 ≤ t0 + 60 * 60 * 24 * 7) :
    verifyToken hash secret t1 (issue_token hash secret t0 uid username) =
      some { uid := uid, username := username, exp := t0 + 60 * 60 * 24 * 7 } := by
  unfold issue_token signToken verifyToken
  rw [rsplitDot_append _ _ (hdot _)]
  dsimp only
  rw [if_neg (fun h => h rfl)]
  rw [loadsPayload_dumpsPayload]
  dsimp only
  rw [if_neg (not_lt.mpr hexp)]

theorem token_roundtrip_witness :
    verifyToken (fun _ => "ffff") "dev-secret-change-me" 100000
        (issue_token (fun _ => "ffff") "dev-secret-change-me" 0 42 "bob") =
      some { uid := 42, username := "bob", exp := 0 + 60 * 60 * 24 * 7 } :=
  token_roundtrip (fun _ => "ffff") "dev-secret-change-me" "bob" 42 0 100000
    (fun _ => by show ('.' : Char) ∉ ("ffff" : String).data; decide) (by norm_num)

end NASA25
